import Mathlib

set_option maxHeartbeats 1000000

/-!
Shallow embedding of the zerotrust-cloud-identity Cloudflare worker
(src/workload/cloudflare/src/jwt.ts and src/workload/cloudflare/src/index.ts).

Modelling conventions:
- JavaScript strings are lists of UTF-16 code units, `List Nat`.
- Byte arrays (Uint8Array) are `List (Fin 256)`.
- Platform primitives that are external to the repository (WebCrypto
  sign/verify/digest/keygen/import, the remote key-set fetch, the remote
  config fetch, the yaml parser, the clock) are explicit parameters.
- `btoa`, `atob`, `TextDecoder`/`TextEncoder` utf-8 and `JSON` are modelled
  concretely below, following their standard (WHATWG / ECMA-404) behaviour,
  because the repository code depends on their exact byte-level behaviour.
-/

/-- Coerce a Nat into a byte the way a JS Uint8Array element store does
(ToUint8: value mod 256). -/
def byte (n : Nat) : Fin 256 := ⟨n % 256, Nat.mod_lt _ (by omega)⟩

/-- Code units of an ASCII Lean string literal; used to write JS string
constants from the source. -/
def jstr (s : String) : List Nat := s.data.map Char.toNat

/-- All code units are ASCII (below 128). -/
def asciiStr (s : List Nat) : Bool := s.all (fun c => c < 128)

/-! ## base64 / base64url (jwt.ts lines 6-20)

The source builds base64url on top of the platform `btoa`/`atob`:
`stringify` does `btoa(String.fromCharCode(...bytes))` then strips `=` and
swaps `+` to `-` and `/` to `_`; `parse` swaps back, removes whitespace and
calls `atob` (WHATWG forgiving-base64 decode). -/

/-- Standard base64 alphabet, index to code unit. -/
def b64char (n : Nat) : Nat :=
  if n < 26 then 65 + n
  else if n < 52 then 97 + (n - 26)
  else if n < 62 then 48 + (n - 52)
  else if n = 62 then 43 else 47

/-- Inverse alphabet lookup used by the `atob` decode. -/
def b64charInv (c : Nat) : Option (Fin 64) :=
  if h : 65 ≤ c ∧ c ≤ 90 then some ⟨c - 65, by omega⟩
  else if h : 97 ≤ c ∧ c ≤ 122 then some ⟨c - 97 + 26, by omega⟩
  else if h : 48 ≤ c ∧ c ≤ 57 then some ⟨c - 48 + 52, by omega⟩
  else if c = 43 then some ⟨62, by omega⟩
  else if c = 47 then some ⟨63, by omega⟩
  else none

/-- Platform `btoa` over latin1 byte content, with `=` padding. -/
def btoa : List (Fin 256) → List Nat
  | [] => []
  | [b1] => [b64char (b1.1 / 4), b64char (b1.1 % 4 * 16), 61, 61]
  | [b1, b2] => [b64char (b1.1 / 4), b64char (b1.1 % 4 * 16 + b2.1 / 16),
                 b64char (b2.1 % 16 * 4), 61]
  | b1 :: b2 :: b3 :: rest =>
      b64char (b1.1 / 4) :: b64char (b1.1 % 4 * 16 + b2.1 / 16) ::
      b64char (b2.1 % 16 * 4 + b3.1 / 64) :: b64char (b3.1 % 64) :: btoa rest

def plusToMinus (c : Nat) : Nat := if c = 43 then 45 else c

def slashToUnder (c : Nat) : Nat := if c = 47 then 95 else c

/-- jwt.ts base64url.stringify: btoa, remove `=`, `+` to `-`, `/` to `_`. -/
def b64urlStringify (bs : List (Fin 256)) : List Nat :=
  (((btoa bs).filter (fun c => decide (c ≠ 61))).map plusToMinus).map slashToUnder

def minusToPlus (c : Nat) : Nat := if c = 45 then 43 else c

def underToSlash (c : Nat) : Nat := if c = 95 then 47 else c

/-- The `\s` class as it matters here (ASCII whitespace). -/
def isJsWs (c : Nat) : Bool := c = 32 || c = 9 || c = 10 || c = 11 || c = 12 || c = 13

/-- Forgiving-base64 step: when the length is a multiple of 4, drop up to two
trailing `=`. -/
def dropEq (s : List Nat) : List Nat :=
  if s.length % 4 = 0 then
    match s.reverse with
    | 61 :: 61 :: r => r.reverse
    | 61 :: r => r.reverse
    | _ => s
  else s

/-- Map every character through the inverse alphabet; any invalid character
makes the whole decode fail (atob throws InvalidCharacterError). -/
def sextets : List Nat → Option (List (Fin 64))
  | [] => some []
  | c :: r =>
    match b64charInv c, sextets r with
    | some x, some xs => some (x :: xs)
    | _, _ => none

/-- Reassemble bytes from sextets; trailing groups of 2 or 3 sextets carry 1
or 2 bytes. (A trailing group of 1 is rejected before this runs.) -/
def sexBytes : List (Fin 64) → List (Fin 256)
  | [] => []
  | [_] => []
  | [a, b] => [byte (a.1 * 4 + b.1 / 16)]
  | [a, b, c] => [byte (a.1 * 4 + b.1 / 16), byte (b.1 % 16 * 16 + c.1 / 4)]
  | a :: b :: c :: d :: rest =>
      byte (a.1 * 4 + b.1 / 16) :: byte (b.1 % 16 * 16 + c.1 / 4) ::
      byte (c.1 % 4 * 64 + d.1) :: sexBytes rest

/-- Platform `atob`: WHATWG forgiving-base64 decode (whitespace is removed by
the caller in jwt.ts before this point). -/
def atob (s : List Nat) : Option (List (Fin 256)) :=
  let t := dropEq s
  if t.length % 4 = 1 then none
  else (sextets t).map sexBytes

/-- jwt.ts base64url.parse: `-` to `+`, `_` to `/`, remove whitespace, atob. -/
def b64urlParse (s : List Nat) : Option (List (Fin 256)) :=
  atob (((s.map minusToPlus).map underToSlash).filter (fun c => !isJsWs c))

/-! ### base64url round-trip -/

/-- The sextet stream `btoa` encodes (without padding), used to factor the
round-trip proof. -/
def sexOf : List (Fin 256) → List (Fin 64)
  | [] => []
  | [b1] => [⟨b1.1 / 4, by omega⟩, ⟨b1.1 % 4 * 16, by omega⟩]
  | [b1, b2] => [⟨b1.1 / 4, by omega⟩, ⟨b1.1 % 4 * 16 + b2.1 / 16, by omega⟩,
                 ⟨b2.1 % 16 * 4, by omega⟩]
  | b1 :: b2 :: b3 :: rest =>
      ⟨b1.1 / 4, by omega⟩ :: ⟨b1.1 % 4 * 16 + b2.1 / 16, by omega⟩ ::
      ⟨b2.1 % 16 * 4 + b3.1 / 64, by omega⟩ :: ⟨b3.1 % 64, by omega⟩ :: sexOf rest

/-- The url-safe character for a sextet. -/
def urlChar (n : Nat) : Nat := slashToUnder (plusToMinus (b64char n))

theorem b64char_ne61 (i : Fin 64) : b64char i.1 ≠ 61 := by
  revert i; decide

theorem urlChar_inv (i : Fin 64) :
    b64charInv (underToSlash (minusToPlus (urlChar i.1))) = some i := by
  revert i; decide

theorem urlChar_not_ws (i : Fin 64) : isJsWs (urlChar i.1) = false := by
  revert i; decide

theorem urlChar_ne61 (i : Fin 64) : urlChar i.1 ≠ 61 := by
  revert i; decide

theorem urlChar_ne46 (i : Fin 64) : urlChar i.1 ≠ 46 := by
  revert i; decide

/-- Stringify produces exactly the url-safe characters of the sextet stream. -/
theorem b64urlStringify_eq_map (bs : List (Fin 256)) :
    b64urlStringify bs = (sexOf bs).map (fun i => urlChar i.1) := by
  induction bs using btoa.induct with
  | case1 =>
    simp [b64urlStringify, btoa, sexOf]
  | case2 b1 =>
    simp [b64urlStringify, btoa, sexOf, urlChar,
      b64char_ne61 ⟨b1.1 / 4, by omega⟩, b64char_ne61 ⟨b1.1 % 4 * 16, by omega⟩]
  | case3 b1 b2 =>
    simp [b64urlStringify, btoa, sexOf, urlChar,
      b64char_ne61 ⟨b1.1 / 4, by omega⟩,
      b64char_ne61 ⟨b1.1 % 4 * 16 + b2.1 / 16, by omega⟩,
      b64char_ne61 ⟨b2.1 % 16 * 4, by omega⟩]
  | case4 b1 b2 b3 rest ih =>
    have h1 := b64char_ne61 ⟨b1.1 / 4, by omega⟩
    have h2 := b64char_ne61 ⟨b1.1 % 4 * 16 + b2.1 / 16, by omega⟩
    have h3 := b64char_ne61 ⟨b2.1 % 16 * 4 + b3.1 / 64, by omega⟩
    have h4 := b64char_ne61 ⟨b3.1 % 64, by omega⟩
    simp only [b64urlStringify, List.map_map] at ih ⊢
    simp [btoa, sexOf, List.filter, h1, h2, h3, h4, urlChar]
    simpa [urlChar, ne_eq, decide_not] using ih

theorem urlChar_back (i : Fin 64) :
    underToSlash (minusToPlus (urlChar i.1)) = b64char i.1 := by
  revert i; decide

theorem b64char_not_ws (i : Fin 64) : isJsWs (b64char i.1) = false := by
  revert i; decide

theorem b64charInv_b64char (i : Fin 64) : b64charInv (b64char i.1) = some i := by
  revert i; decide

/-- The parse-side character maps and whitespace filter undo the url-safe
substitutions. -/
theorem urlmap_chain (l : List (Fin 64)) :
    ((((l.map (fun i => urlChar i.1)).map minusToPlus).map underToSlash).filter
      (fun c => !isJsWs c)) = l.map (fun i => b64char i.1) := by
  induction l with
  | nil => rfl
  | cons i t ih =>
    simp only [List.map_cons, List.filter_cons, urlChar_back, b64char_not_ws]
    simpa using ih

theorem sextets_map_b64char (l : List (Fin 64)) :
    sextets (l.map (fun i => b64char i.1)) = some l := by
  induction l with
  | nil => rfl
  | cons i t ih => simp [sextets, b64charInv_b64char, ih]

theorem dropEq_of_ne61 (s : List Nat) (h : 61 ∉ s) : dropEq s = s := by
  have h2 : ∀ r, s.reverse ≠ 61 :: r := by
    intro r hr
    apply h
    have hm : 61 ∈ s.reverse := by rw [hr]; exact List.mem_cons_self _ _
    simpa using hm
  unfold dropEq
  split
  · split
    · rename_i heq; exact absurd heq (h2 _)
    · rename_i heq; exact absurd heq (h2 _)
    · rfl
  · rfl

theorem sexOf_length_mod (bs : List (Fin 256)) : (sexOf bs).length % 4 ≠ 1 := by
  induction bs using sexOf.induct with
  | case1 => simp [sexOf]
  | case2 b1 => simp [sexOf]
  | case3 b1 b2 => simp [sexOf]
  | case4 b1 b2 b3 rest ih => simp [sexOf]; omega

theorem sexBytes_sexOf (bs : List (Fin 256)) : sexBytes (sexOf bs) = bs := by
  induction bs using sexOf.induct with
  | case1 => rfl
  | case2 b1 =>
    have hb := b1.isLt
    simp [sexOf, sexBytes, byte, Fin.ext_iff]
    omega
  | case3 b1 b2 =>
    have hb1 := b1.isLt
    have hb2 := b2.isLt
    simp [sexOf, sexBytes, byte, Fin.ext_iff]
    constructor <;> omega
  | case4 b1 b2 b3 rest ih =>
    have hb1 := b1.isLt
    have hb2 := b2.isLt
    have hb3 := b3.isLt
    simp [sexOf, sexBytes, byte, Fin.ext_iff, ih]
    refine ⟨by omega, by omega, by omega⟩

/-- Characters produced by base64url.stringify are never `=`. -/
theorem b64urlStringify_ne61 (bs : List (Fin 256)) :
    ∀ c ∈ b64urlStringify bs, c ≠ 61 := by
  rw [b64urlStringify_eq_map]
  intro c hc
  rcases List.mem_map.mp hc with ⟨i, _, rfl⟩
  exact urlChar_ne61 i

/-- Characters produced by base64url.stringify are never a dot, so a JWT
splits back into exactly its three segments. -/
theorem b64urlStringify_ne46 (bs : List (Fin 256)) :
    ∀ c ∈ b64urlStringify bs, c ≠ 46 := by
  rw [b64urlStringify_eq_map]
  intro c hc
  rcases List.mem_map.mp hc with ⟨i, _, rfl⟩
  exact urlChar_ne46 i

/-- base64url round trip: parsing a stringified byte array restores it. -/
theorem b64url_roundtrip (bs : List (Fin 256)) :
    b64urlParse (b64urlStringify bs) = some bs := by
  rw [b64urlStringify_eq_map]
  unfold b64urlParse atob
  rw [urlmap_chain]
  have hno61 : 61 ∉ (sexOf bs).map (fun i => b64char i.1) := by
    intro hm
    rcases List.mem_map.mp hm with ⟨i, _, hi⟩
    exact b64char_ne61 i hi
  rw [dropEq_of_ne61 _ hno61]
  have hlen : ((sexOf bs).map (fun i => b64char i.1)).length % 4 ≠ 1 := by
    rw [List.length_map]; exact sexOf_length_mod bs
  rw [if_neg hlen, sextets_map_b64char]
  simp [sexBytes_sexOf]

/-! ## TextDecoder / TextEncoder (platform, used by jwt.ts)

`new TextDecoder(utf-8).decode` in its default non-fatal mode: WHATWG utf-8
decode with U+FFFD replacement; astral code points come out as surrogate
pairs of UTF-16 code units.  `new TextEncoder().encode`: WHATWG utf-8 encode
of a UTF-16 code-unit sequence, lone surrogates become U+FFFD. -/

/-- Continuation byte 80..BF. -/
def contB (x : Fin 256) : Bool := decide (128 ≤ x.1 ∧ x.1 < 192)

/-- First continuation byte range for a 3-byte lead (E0 narrows the low end,
ED narrows the high end, excluding surrogates). -/
def cont3a (n : Nat) (x : Fin 256) : Bool :=
  decide ((if n = 224 then 160 else 128) ≤ x.1 ∧ x.1 < (if n = 237 then 160 else 192))

/-- First continuation byte range for a 4-byte lead (F0 narrows the low end,
F4 narrows the high end, capping at U+10FFFF). -/
def cont4a (n : Nat) (x : Fin 256) : Bool :=
  decide ((if n = 240 then 144 else 128) ≤ x.1 ∧ x.1 < (if n = 244 then 144 else 192))

def cp2 (n : Nat) (b2 : Fin 256) : Nat := (n - 192) * 64 + (b2.1 - 128)

def cp3 (n : Nat) (b2 b3 : Fin 256) : Nat :=
  (n - 224) * 4096 + (b2.1 - 128) * 64 + (b3.1 - 128)

def cp4 (n : Nat) (b2 b3 b4 : Fin 256) : Nat :=
  (n - 240) * 262144 + (b2.1 - 128) * 4096 + (b3.1 - 128) * 64 + (b4.1 - 128)

/-- An astral code point as its UTF-16 surrogate pair. -/
def surrPair (cp : Nat) : List Nat :=
  [55296 + (cp - 65536) / 1024, 56320 + (cp - 65536) % 1024]

def utf8Decode : List (Fin 256) → List Nat
  | [] => []
  | [b] => if b.1 < 128 then [b.1] else [65533]
  | [b, b2] =>
    if b.1 < 128 then b.1 :: utf8Decode [b2]
    else if b.1 < 194 then 65533 :: utf8Decode [b2]
    else if b.1 < 224 then
      if contB b2 then [cp2 b.1 b2] else 65533 :: utf8Decode [b2]
    else if b.1 < 240 then
      if cont3a b.1 b2 then [65533] else 65533 :: utf8Decode [b2]
    else if b.1 < 245 then
      if cont4a b.1 b2 then [65533] else 65533 :: utf8Decode [b2]
    else 65533 :: utf8Decode [b2]
  | [b, b2, b3] =>
    if b.1 < 128 then b.1 :: utf8Decode [b2, b3]
    else if b.1 < 194 then 65533 :: utf8Decode [b2, b3]
    else if b.1 < 224 then
      if contB b2 then cp2 b.1 b2 :: utf8Decode [b3] else 65533 :: utf8Decode [b2, b3]
    else if b.1 < 240 then
      if cont3a b.1 b2 then
        if contB b3 then [cp3 b.1 b2 b3] else 65533 :: utf8Decode [b3]
      else 65533 :: utf8Decode [b2, b3]
    else if b.1 < 245 then
      if cont4a b.1 b2 then
        if contB b3 then [65533] else 65533 :: utf8Decode [b3]
      else 65533 :: utf8Decode [b2, b3]
    else 65533 :: utf8Decode [b2, b3]
  | b :: b2 :: b3 :: b4 :: r4 =>
    if b.1 < 128 then b.1 :: utf8Decode (b2 :: b3 :: b4 :: r4)
    else if b.1 < 194 then 65533 :: utf8Decode (b2 :: b3 :: b4 :: r4)
    else if b.1 < 224 then
      if contB b2 then cp2 b.1 b2 :: utf8Decode (b3 :: b4 :: r4)
      else 65533 :: utf8Decode (b2 :: b3 :: b4 :: r4)
    else if b.1 < 240 then
      if cont3a b.1 b2 then
        if contB b3 then cp3 b.1 b2 b3 :: utf8Decode (b4 :: r4)
        else 65533 :: utf8Decode (b3 :: b4 :: r4)
      else 65533 :: utf8Decode (b2 :: b3 :: b4 :: r4)
    else if b.1 < 245 then
      if cont4a b.1 b2 then
        if contB b3 then
          if contB b4 then surrPair (cp4 b.1 b2 b3 b4) ++ utf8Decode r4
          else 65533 :: utf8Decode (b4 :: r4)
        else 65533 :: utf8Decode (b3 :: b4 :: r4)
      else 65533 :: utf8Decode (b2 :: b3 :: b4 :: r4)
    else 65533 :: utf8Decode (b2 :: b3 :: b4 :: r4)

/-- utf-8 decoding is the identity on ASCII byte content. -/
theorem utf8Decode_ascii (bs : List (Fin 256)) (h : ∀ b ∈ bs, b.1 < 128) :
    utf8Decode bs = bs.map (fun b => b.1) := by
  induction bs with
  | nil => rfl
  | cons b rest ih =>
    have hb : b.1 < 128 := h b (List.mem_cons_self _ _)
    have ih2 := ih (fun x hx => h x (List.mem_cons_of_mem _ hx))
    rcases rest with _ | ⟨b2, _ | ⟨b3, _ | ⟨b4, r4⟩⟩⟩ <;>
      simp [utf8Decode, hb, ih2] <;> simp_all [utf8Decode]

/-- WHATWG utf-8 encode of UTF-16 code units (JS code units are < 2^16 by
construction in this development); lone surrogates encode as U+FFFD. -/
def utf8Encode : List Nat → List (Fin 256)
  | [] => []
  | [c] =>
    if c < 128 then [byte c]
    else if c < 2048 then [byte (192 + c / 64), byte (128 + c % 64)]
    else if 55296 ≤ c ∧ c < 57344 then [byte 239, byte 191, byte 189]
    else [byte (224 + c / 4096), byte (128 + c / 64 % 64), byte (128 + c % 64)]
  | c :: c2 :: r =>
    if c < 128 then byte c :: utf8Encode (c2 :: r)
    else if c < 2048 then byte (192 + c / 64) :: byte (128 + c % 64) :: utf8Encode (c2 :: r)
    else if 55296 ≤ c ∧ c < 56320 then
      if 56320 ≤ c2 ∧ c2 < 57344 then
        let cp := 65536 + (c - 55296) * 1024 + (c2 - 56320)
        byte (240 + cp / 262144) :: byte (128 + cp / 4096 % 64) ::
          byte (128 + cp / 64 % 64) :: byte (128 + cp % 64) :: utf8Encode r
      else byte 239 :: byte 191 :: byte 189 :: utf8Encode (c2 :: r)
    else if 56320 ≤ c ∧ c < 57344 then
      byte 239 :: byte 191 :: byte 189 :: utf8Encode (c2 :: r)
    else byte (224 + c / 4096) :: byte (128 + c / 64 % 64) :: byte (128 + c % 64) ::
      utf8Encode (c2 :: r)

/-! ## JS string splitting (String.prototype.split with a one-character
separator, as used for `token.split(.)` and `path.split(/)`). -/

def splitSep (sep : Nat) : List Nat → List (List Nat)
  | [] => [[]]
  | c :: r =>
    match splitSep sep r with
    | [] => [[]]
    | h :: t => if c = sep then [] :: h :: t else (c :: h) :: t

theorem splitSep_nil (sep : Nat) : splitSep sep [] = [[]] := rfl

theorem splitSep_ne_nil (sep : Nat) (l : List Nat) : splitSep sep l ≠ [] := by
  induction l with
  | nil => simp [splitSep]
  | cons c r ih =>
    rcases h : splitSep sep r with _ | ⟨h1, t⟩
    · simp [splitSep, h]
    · by_cases hc : c = sep <;> simp [splitSep, h, hc]

/-- Splitting text that does not contain the separator, followed by a
separator, peels off exactly that text. -/
theorem splitSep_append (sep : Nat) (a rest : List Nat) (ha : sep ∉ a) :
    splitSep sep (a ++ sep :: rest) = a :: splitSep sep rest := by
  induction a with
  | nil =>
    simp only [List.nil_append, splitSep]
    rcases h : splitSep sep rest with _ | ⟨h1, t⟩
    · exact absurd h (splitSep_ne_nil sep rest)
    · simp
  | cons c a2 ih =>
    have hc : c ≠ sep := fun hcs => ha (hcs ▸ List.mem_cons_self _ _)
    have ha2 : sep ∉ a2 := fun hm => ha (List.mem_cons_of_mem _ hm)
    simp only [List.cons_append, splitSep, List.append_eq]
    rw [ih ha2]
    simp [hc]

/-- Splitting text with no separator at all returns it as the only segment. -/
theorem splitSep_no_sep (sep : Nat) (a : List Nat) (ha : sep ∉ a) :
    splitSep sep a = [a] := by
  induction a with
  | nil => rfl
  | cons c a2 ih =>
    have hc : c ≠ sep := fun hcs => ha (hcs ▸ List.mem_cons_self _ _)
    have ha2 : sep ∉ a2 := fun hm => ha (List.mem_cons_of_mem _ hm)
    simp [splitSep, ih ha2, hc]

/-- A three-segment join splits back into its three segments when none of
them contains the separator. -/
theorem splitSep_three (sep : Nat) (a b c : List Nat)
    (ha : sep ∉ a) (hb : sep ∉ b) (hc : sep ∉ c) :
    splitSep sep (a ++ sep :: (b ++ sep :: c)) = [a, b, c] := by
  rw [splitSep_append sep a _ ha, splitSep_append sep b _ hb, splitSep_no_sep sep c hc]

/-- jwt.ts asciiToUint8Array: charCodeAt per code unit into a Uint8Array. -/
def asciiToUint8Array (s : List Nat) : List (Fin 256) := s.map byte

/-- On ASCII strings, decoding the ascii bytes restores the string. -/
theorem utf8Decode_ascii_bytes (s : List Nat) (h : asciiStr s = true) :
    utf8Decode (asciiToUint8Array s) = s := by
  have h2 : ∀ c ∈ s, c < 128 := by
    intro c hc
    have := List.all_eq_true.mp h c hc
    simpa using this
  rw [utf8Decode_ascii]
  · simp only [asciiToUint8Array, List.map_map]
    have : ∀ c ∈ s, (byte c).1 = c := by
      intro c hc
      have hcc := h2 c hc
      simp [byte, Nat.mod_eq_of_lt (show c < 256 by omega)]
    calc s.map (fun c => (byte c).1) = s.map id := List.map_congr_left this
    _ = s := List.map_id s
  · intro b hb
    rcases List.mem_map.mp hb with ⟨c, hc, rfl⟩
    have := h2 c hc
    simp [byte]
    omega

/-! ## JSON (platform JSON.stringify / JSON.parse, ECMA-404 / ES2019)

JSON values as the worker sees them.  Two deliberate modelling boundaries,
neither load-bearing for any claim below: numbers are integers (fractional
or exponent literals are treated as unparseable), and JS ToNumber coercion
of arrays is approximated as NaN. -/

inductive JSValue where
  | null
  | bool (b : Bool)
  | num (n : Int)
  | str (s : List Nat)
  | arr (xs : List JSValue)
  | obj (fs : List (List Nat × JSValue))

def hexChar (n : Nat) : Nat := if n < 10 then 48 + n else 87 + n

/-- ES2019 QuoteJSONString, one code unit: escape quote, backslash and
control characters (short escapes for b t n f r), escape surrogates as
unicode escapes; anything else passes through. -/
def escOne (c : Nat) : List Nat :=
  if c = 34 then [92, 34]
  else if c = 92 then [92, 92]
  else if c = 8 then [92, 98]
  else if c = 9 then [92, 116]
  else if c = 10 then [92, 110]
  else if c = 12 then [92, 102]
  else if c = 13 then [92, 114]
  else if c < 32 then [92, 117, 48, 48, hexChar (c / 16), hexChar (c % 16)]
  else if 55296 ≤ c ∧ c < 57344 then
    [92, 117, hexChar (c / 4096), hexChar (c / 256 % 16), hexChar (c / 16 % 16),
     hexChar (c % 16)]
  else [c]

/-- ES2019 QuoteJSONString body: well-formed surrogate pairs pass through,
every other unit is escaped or kept by escOne. -/
def quoteBody : List Nat → List Nat
  | [] => []
  | [c] => escOne c
  | c :: c2 :: r2 =>
    if 55296 ≤ c ∧ c < 56320 ∧ 56320 ≤ c2 ∧ c2 < 57344 then c :: c2 :: quoteBody r2
    else escOne c ++ quoteBody (c2 :: r2)

/-- JSON string literal for a JS string. -/
def jsonQuote (s : List Nat) : List Nat := 34 :: (quoteBody s ++ [34])

/-- Decimal representation of an integer-valued JS number. -/
def numRepr (n : Int) : List Nat :=
  (if n < 0 then [45] else []) ++ (Nat.repr n.natAbs).data.map Char.toNat

mutual

/-- JSON.stringify (no spacing; object fields in insertion order). -/
def jsonStringify : JSValue → List Nat
  | .null => jstr ("null")
  | .bool true => jstr ("true")
  | .bool false => jstr ("false")
  | .num n => numRepr n
  | .str s => jsonQuote s
  | .arr xs => 91 :: (jsonStringifyList xs ++ [93])
  | .obj fs => 123 :: (jsonStringifyFields fs ++ [125])

def jsonStringifyList : List JSValue → List Nat
  | [] => []
  | [x] => jsonStringify x
  | x :: y :: r => jsonStringify x ++ 44 :: jsonStringifyList (y :: r)

def jsonStringifyFields : List (List Nat × JSValue) → List Nat
  | [] => []
  | [(k, v)] => jsonQuote k ++ 58 :: jsonStringify v
  | (k, v) :: f :: r => jsonQuote k ++ 58 :: jsonStringify v ++ 44 :: jsonStringifyFields (f :: r)

end

def hexDigitVal (c : Nat) : Option Nat :=
  if 48 ≤ c ∧ c ≤ 57 then some (c - 48)
  else if 97 ≤ c ∧ c ≤ 102 then some (c - 87)
  else if 65 ≤ c ∧ c ≤ 70 then some (c - 55)
  else none

/-- JSON string literal body: consume up to the closing quote, handling
escapes; unescaped control characters are invalid. -/
def parseStrBody : List Nat → Option (List Nat × List Nat)
  | [] => none
  | 34 :: r => some ([], r)
  | 92 :: r =>
    match r with
    | 34 :: r2 => (parseStrBody r2).map (fun p => (34 :: p.1, p.2))
    | 92 :: r2 => (parseStrBody r2).map (fun p => (92 :: p.1, p.2))
    | 47 :: r2 => (parseStrBody r2).map (fun p => (47 :: p.1, p.2))
    | 98 :: r2 => (parseStrBody r2).map (fun p => (8 :: p.1, p.2))
    | 102 :: r2 => (parseStrBody r2).map (fun p => (12 :: p.1, p.2))
    | 110 :: r2 => (parseStrBody r2).map (fun p => (10 :: p.1, p.2))
    | 114 :: r2 => (parseStrBody r2).map (fun p => (13 :: p.1, p.2))
    | 116 :: r2 => (parseStrBody r2).map (fun p => (9 :: p.1, p.2))
    | 117 :: h1 :: h2 :: h3 :: h4 :: r2 =>
      match hexDigitVal h1, hexDigitVal h2, hexDigitVal h3, hexDigitVal h4 with
      | some a, some b, some c, some d =>
        (parseStrBody r2).map (fun p => ((a * 4096 + b * 256 + c * 16 + d) :: p.1, p.2))
      | _, _, _, _ => none
    | _ => none
  | c :: r => if c < 32 then none else (parseStrBody r).map (fun p => (c :: p.1, p.2))

/-- Consume a run of decimal digits into an accumulator. -/
def digitsVal : List Nat → Nat → Nat × List Nat
  | c :: r, acc => if 48 ≤ c ∧ c ≤ 57 then digitsVal r (acc * 10 + (c - 48)) else (acc, c :: r)
  | [], acc => (acc, [])

/-- JSON integer part: a single 0 or a nonzero digit followed by digits. -/
def parseIntPart : List Nat → Option (Nat × List Nat)
  | 48 :: r => some (0, r)
  | c :: r => if 49 ≤ c ∧ c ≤ 57 then some (digitsVal r (c - 48)) else none
  | [] => none

/-- JSON number as an integer (model boundary: `.`/`e` continuations are not
consumed, so fractional and exponent numbers fail to parse). -/
def parseNum : List Nat → Option (Int × List Nat)
  | 45 :: r => (parseIntPart r).map (fun p => (-(p.1 : Int), p.2))
  | s => (parseIntPart s).map (fun p => ((p.1 : Int), p.2))

/-- JSON insignificant whitespace. -/
def skipWs (s : List Nat) : List Nat :=
  s.dropWhile (fun c => c = 32 || c = 9 || c = 10 || c = 13)

mutual

/-- Fuel-indexed JSON value grammar (JSON.parse); fuel only bounds nesting,
every recursion step consumes at least one character, so `length + 1` fuel
always suffices. -/
def parseV : Nat → List Nat → Option (JSValue × List Nat)
  | 0, _ => none
  | f + 1, s =>
    match skipWs s with
    | 110 :: 117 :: 108 :: 108 :: r => some (.null, r)
    | 116 :: 114 :: 117 :: 101 :: r => some (.bool true, r)
    | 102 :: 97 :: 108 :: 115 :: 101 :: r => some (.bool false, r)
    | 34 :: r => (parseStrBody r).map (fun p => (.str p.1, p.2))
    | 91 :: r =>
      match skipWs r with
      | 93 :: r2 => some (.arr [], r2)
      | r2 => (parseElems f r2).map (fun p => (.arr p.1, p.2))
    | 123 :: r =>
      match skipWs r with
      | 125 :: r2 => some (.obj [], r2)
      | r2 => (parseFields f r2).map (fun p => (.obj p.1, p.2))
    | r => (parseNum r).map (fun p => (.num p.1, p.2))

def parseElems : Nat → List Nat → Option (List JSValue × List Nat)
  | 0, _ => none
  | f + 1, s =>
    match parseV f s with
    | none => none
    | some (v, r) =>
      match skipWs r with
      | 44 :: r2 => (parseElems f r2).map (fun p => (v :: p.1, p.2))
      | 93 :: r2 => some ([v], r2)
      | _ => none

def parseFields : Nat → List Nat → Option (List (List Nat × JSValue) × List Nat)
  | 0, _ => none
  | f + 1, s =>
    match skipWs s with
    | 34 :: r =>
      match parseStrBody r with
      | none => none
      | some (k, r2) =>
        match skipWs r2 with
        | 58 :: r3 =>
          match parseV f r3 with
          | none => none
          | some (v, r4) =>
            match skipWs r4 with
            | 44 :: r5 => (parseFields f r5).map (fun p => ((k, v) :: p.1, p.2))
            | 125 :: r5 => some ([(k, v)], r5)
            | _ => none
        | _ => none
    | _ => none

end

/-- JSON.parse: a complete value with only trailing whitespace after it. -/
def jsonParse (s : List Nat) : Option JSValue :=
  match parseV (s.length + 1) s with
  | some (v, r) => if skipWs r = [] then some v else none
  | none => none

/-- JS property read on a parsed JSON value: objects keep the last duplicate
key (as JSON.parse does); reads on non-objects give undefined. -/
def getField (v : JSValue) (k : List Nat) : Option JSValue :=
  match v with
  | .obj fs => ((fs.filter (fun p => decide (p.1 = k))).getLast?).map (fun p => p.2)
  | _ => none

/-- JS ToNumber for the relational comparison `claims.exp < now`.
none models NaN.  Strings: trimmed decimal integers only, the empty string
is 0 (model boundary: hex/fractional string forms come out as NaN; no claim
depends on a string-valued exp).  Arrays are approximated as NaN (a real JS
engine stringifies them first); objects are genuinely NaN. -/
def strToNumber (s : List Nat) : Option Int :=
  let t := (s.dropWhile isJsWs).reverse.dropWhile isJsWs |>.reverse
  if t = [] then some 0
  else
    match t with
    | 45 :: d =>
      if d ≠ [] ∧ d.all (fun c => 48 ≤ c ∧ c ≤ 57) then
        some (-(d.foldl (fun acc c => acc * 10 + (c - 48)) 0 : Int))
      else none
    | d =>
      if d.all (fun c => 48 ≤ c ∧ c ≤ 57) then
        some ((d.foldl (fun acc c => acc * 10 + (c - 48)) 0 : Int))
      else none

def toNumber : JSValue → Option Int
  | .null => some 0
  | .bool b => some (if b then 1 else 0)
  | .num n => some n
  | .str s => strToNumber s
  | .arr _ => none
  | .obj _ => none

/-- The JS comparison `x < now` where x may be undefined (absent property):
undefined and other NaN coercions compare false. -/
def expLt (x : Option JSValue) (now : Int) : Bool :=
  match x with
  | none => false
  | some v =>
    match toNumber v with
    | none => false
    | some m => decide (m < now)

/-! ### Inversion lemmas used for the sign/verify round trip -/

theorem hexDigitVal_hexChar (x : Nat) (h : x < 16) : hexDigitVal (hexChar x) = some x := by
  interval_cases x <;> decide

theorem asciiStr_cons (c : Nat) (t : List Nat) (h : asciiStr (c :: t) = true) :
    c < 128 ∧ asciiStr t = true := by
  have h1 := List.all_eq_true.mp h c (List.mem_cons_self _ _)
  refine ⟨by simpa using h1, List.all_eq_true.mpr ?_⟩
  intro x hx
  exact List.all_eq_true.mp h x (List.mem_cons_of_mem _ hx)

/-- Parsing one escaped-or-kept ASCII code unit then a successfully parsed
continuation. -/
theorem parseStrBody_escOne (c : Nat) (hc : c < 128) (X : List Nat)
    (v : List Nat × List Nat) (hX : parseStrBody X = some v) :
    parseStrBody (escOne c ++ X) = some (c :: v.1, v.2) := by
  rcases Nat.lt_or_ge c 32 with hlt | hge
  · interval_cases c <;> simp [escOne, parseStrBody, hexDigitVal, hexChar, hX]
  · by_cases h34 : c = 34
    · subst h34; simp [escOne, parseStrBody, hX]
    · by_cases h92 : c = 92
      · subst h92; simp [escOne, parseStrBody, hX]
      · have he : escOne c = [c] := by
          simp [escOne, h34, h92, show c ≠ 8 by omega, show c ≠ 9 by omega,
            show c ≠ 10 by omega, show c ≠ 12 by omega, show c ≠ 13 by omega,
            show ¬ c < 32 by omega, show ¬ (55296 ≤ c ∧ c < 57344) by omega]
        rw [he]
        simp [parseStrBody, h34, h92, show ¬ c < 32 by omega, hX]

/-- Parsing a quoted ASCII string body restores the string and the rest of
the input. -/
theorem parseStrBody_quote (s : List Nat) (h : asciiStr s = true) (rest : List Nat) :
    parseStrBody (quoteBody s ++ 34 :: rest) = some (s, rest) := by
  induction s using quoteBody.induct with
  | case1 => simp [quoteBody, parseStrBody]
  | case2 c =>
    have hc : c < 128 := (asciiStr_cons c [] h).1
    have := parseStrBody_escOne c hc (34 :: rest) ([], rest) (by simp [parseStrBody])
    simpa [quoteBody] using this
  | case3 c c2 r2 hcond ih =>
    have hc : c < 128 := (asciiStr_cons c (c2 :: r2) h).1
    exact absurd hcond (by omega)
  | case4 c c2 r2 hcond ih =>
    obtain ⟨hc, ht⟩ := asciiStr_cons c (c2 :: r2) h
    have ih2 := ih ht
    have hq : quoteBody (c :: c2 :: r2) ++ 34 :: rest =
        escOne c ++ (quoteBody (c2 :: r2) ++ 34 :: rest) := by
      rw [quoteBody]
      simp [hcond, List.append_assoc]
    rw [hq]
    exact parseStrBody_escOne c hc _ (c2 :: r2, rest) ih2

theorem skipWs_cons (c : Nat) (r : List Nat)
    (h : (c = 32 ∨ c = 9 ∨ c = 10 ∨ c = 13) → False) : skipWs (c :: r) = c :: r := by
  have hb : (fun c => c = 32 || c = 9 || c = 10 || c = 13) c = false := by
    simp only [Bool.or_eq_false_iff, decide_eq_false_iff_not]
    refine ⟨⟨⟨?_, ?_⟩, ?_⟩, ?_⟩ <;> intro hc <;> exact h (by omega)
  simp [skipWs, List.dropWhile_cons, hb]

/-- Parsing a stringified ASCII string value. -/
theorem parseV_quote (f : Nat) (s : List Nat) (h : asciiStr s = true) (rest : List Nat) :
    parseV (f + 1) (jsonQuote s ++ rest) = some (.str s, rest) := by
  have he : jsonQuote s ++ rest = 34 :: (quoteBody s ++ 34 :: rest) := by
    simp [jsonQuote]
  rw [he, parseV]
  rw [skipWs_cons 34 _ (by omega)]
  simp [parseStrBody_quote s h rest]

theorem escOne_ascii (c : Nat) (hc : c < 128) : asciiStr (escOne c) = true := by
  rcases Nat.lt_or_ge c 32 with hlt | hge
  · interval_cases c <;> decide
  · by_cases h34 : c = 34
    · subst h34; decide
    · by_cases h92 : c = 92
      · subst h92; decide
      · have he : escOne c = [c] := by
          simp [escOne, h34, h92, show c ≠ 8 by omega, show c ≠ 9 by omega,
            show c ≠ 10 by omega, show c ≠ 12 by omega, show c ≠ 13 by omega,
            show ¬ c < 32 by omega, show ¬ (55296 ≤ c ∧ c < 57344) by omega]
        rw [he]
        simp [asciiStr, hc]

/-- Quoting an ASCII string produces ASCII output. -/
theorem quoteBody_ascii (s : List Nat) (h : asciiStr s = true) :
    asciiStr (quoteBody s) = true := by
  induction s using quoteBody.induct with
  | case1 => decide
  | case2 c =>
    have hc : c < 128 := (asciiStr_cons c [] h).1
    simpa [quoteBody] using escOne_ascii c hc
  | case3 c c2 r2 hcond ih =>
    have hc : c < 128 := (asciiStr_cons c (c2 :: r2) h).1
    exact absurd hcond (by omega)
  | case4 c c2 r2 hcond ih =>
    obtain ⟨hc, ht⟩ := asciiStr_cons c (c2 :: r2) h
    have ih2 := ih ht
    have hq : quoteBody (c :: c2 :: r2) = escOne c ++ quoteBody (c2 :: r2) := by
      rw [quoteBody]
      simp [hcond]
    rw [hq]
    simp only [asciiStr, List.all_append] at *
    simp [escOne_ascii c hc, ih2, List.all_eq_true]
    intro x hx
    have := List.all_eq_true.mp (escOne_ascii c hc) x hx
    simpa using this

/-! ## jwt.ts: token header -/

/-- The JWT header signJWT builds: alg RS256 plus the key id. -/
def headerObj (kid : List Nat) : JSValue :=
  .obj [(jstr ("alg"), .str (jstr ("RS256"))), (jstr ("kid"), .str kid)]

/-- The serialized header laid out explicitly around the quoted key id. -/
theorem headerBytes_spine (kid : List Nat) (rest : List Nat) :
    jsonStringify (headerObj kid) ++ rest =
      123 :: 34 :: 97 :: 108 :: 103 :: 34 :: 58 :: 34 :: 82 :: 83 :: 50 :: 53 :: 54 :: 34 ::
      44 :: 34 :: 107 :: 105 :: 100 :: 34 :: 58 :: 34 ::
      (quoteBody kid ++ 34 :: 125 :: rest) := by
  have h1 : quoteBody (jstr ("alg")) = [97, 108, 103] := rfl
  have h2 : quoteBody (jstr ("RS256")) = [82, 83, 50, 53, 54] := rfl
  have h3 : quoteBody (jstr ("kid")) = [107, 105, 100] := rfl
  simp [headerObj, jsonStringify, jsonStringifyFields, h1, h2, h3, jsonQuote,
    List.append_assoc]

/-- Parsing the stringified header back (for an ASCII key id). -/
theorem parseV_header (f : Nat) (kid : List Nat) (h : asciiStr kid = true) (rest : List Nat) :
    parseV (f + 4) (jsonStringify (headerObj kid) ++ rest) = some (headerObj kid, rest) := by
  have j1 : jstr ("alg") = [97, 108, 103] := rfl
  have j2 : jstr ("RS256") = [82, 83, 50, 53, 54] := rfl
  have j3 : jstr ("kid") = [107, 105, 100] := rfl
  rw [headerBytes_spine kid rest]
  simp only [parseV, parseFields, parseStrBody, skipWs, List.dropWhile]
  norm_num [parseStrBody_quote kid h, headerObj, parseStrBody, j1, j2, j3]

/-! ## jwt.ts: keys and tokens

External primitives appear as parameters: `sha1` (crypto.subtle.digest),
`genPub` / `genPriv` (the exported JWKs of a crypto.subtle.generateKey
pair), `importK` (crypto.subtle.importKey on the stored private JWK),
`csign` / `cverify` (crypto.subtle.sign / verify), `fetchKey`
(fetchAccessPublicKey: resolves the kid against the remote key set, none
when no matching key imports), `now` (Math.floor(Date.now() / 1000)).
The Workers KV namespace is a string-to-string map. -/

def Store : Type := List Nat → Option (List Nat)

def putStore (st : Store) (k v : List Nat) : Store :=
  fun k2 => if k2 = k then some v else st k2

/-- getSigningKey: the KV key KEY_PREFIX followed by _keys. -/
def keysName (keyPref : List Nat) : List Nat := keyPref ++ jstr ("_keys")

structure KeySet where
  pub : JSValue
  priv : JSValue
  kid : List Nat

/-- The record generateKeys persists: JSON.stringify of public, private and
kid in that order. -/
def keysetToJSON (ks : KeySet) : JSValue :=
  .obj [(jstr ("public"), ks.pub), (jstr ("private"), ks.priv), (jstr ("kid"), .str ks.kid)]

/-- Reading the record fields back (modelling boundary: the worker trusts
the stored shape; a record without these fields would make it read
undefined member values). -/
def keysetOfJSON (v : JSValue) : Option KeySet :=
  match getField v (jstr ("public")), getField v (jstr ("private")),
      getField v (jstr ("kid")) with
  | some pb, some pv, some (.str k) => some ⟨pb, pv, k⟩
  | _, _, _ => none

/-- The json-typed KV read of the keyset record. -/
def getKeyset (st : Store) (keyPref : List Nat) : Option KeySet :=
  (st (keysName keyPref)).bind (fun raw => (jsonParse raw).bind keysetOfJSON)

/-- One byte as two lowercase hex digits: toString(16) with padStart(2, 0). -/
def byteHex (b : Fin 256) : List Nat := [hexChar (b.1 / 16), hexChar (b.1 % 16)]

/-- generateKID: sha1 of the utf-8 bytes of the serialized public key, hex
per byte joined, then substring(0, 64). -/
def generateKID (sha1 : List (Fin 256) → List (Fin 256)) (publicKey : List Nat) : List Nat :=
  (((sha1 (utf8Encode publicKey)).map byteHex).flatten).take 64

/-- generateKeys: generate a pair, export both halves, derive the kid from
the JSON of the exported public key, persist one record. -/
def generateKeys (sha1 : List (Fin 256) → List (Fin 256)) (genPub genPriv : JSValue)
    (keyPref : List Nat) (st : Store) : KeySet × Store :=
  let kid := generateKID sha1 (jsonStringify genPub)
  let ks : KeySet := ⟨genPub, genPriv, kid⟩
  (ks, putStore st (keysName keyPref) (jsonStringify (keysetToJSON ks)))

def objFields : JSValue → List (List Nat × JSValue)
  | .obj fs => fs
  | _ => []

/-- loadPublicKey: kid spread together with the public JWK from the stored
record, generating a keyset first when none is stored. -/
def loadPublicKey (sha1 : List (Fin 256) → List (Fin 256)) (genPub genPriv : JSValue)
    (keyPref : List Nat) (st : Store) : JSValue × Store :=
  match getKeyset st keyPref with
  | some ks => (.obj ((jstr ("kid"), .str ks.kid) :: objFields ks.pub), st)
  | none =>
    let p := generateKeys sha1 genPub genPriv keyPref st
    (.obj ((jstr ("kid"), .str p.1.kid) :: objFields p.1.pub), p.2)

/-- loadSigningKey with explicit recursion fuel: the source calls itself
again unconditionally after loadPublicKey; none models running out of fuel
(the source would keep recursing). -/
def loadSigningKeyF {S : Type} (importK : JSValue → S)
    (sha1 : List (Fin 256) → List (Fin 256)) (genPub genPriv : JSValue)
    (keyPref : List Nat) : Nat → Store → Option ((List Nat × S) × Store)
  | 0, _ => none
  | f + 1, st =>
    match getKeyset st keyPref with
    | some ks => some ((ks.kid, importK ks.priv), st)
    | none =>
      let p := loadPublicKey sha1 genPub genPriv keyPref st
      loadSigningKeyF importK sha1 genPub genPriv keyPref f p.2

/-- signJWT: load the signing handle, build the header, base64url the
stringified header and payload, sign the dot-joined encoding, append the
encoded signature.  The fuel 2 reflects that one retry suffices against a
coherent store; the source recursion is unbounded. -/
def signJWT {S : Type} (importK : JSValue → S)
    (csign : S → List (Fin 256) → List (Fin 256))
    (sha1 : List (Fin 256) → List (Fin 256)) (genPub genPriv : JSValue)
    (keyPref : List Nat) (st : Store) (payload : List Nat) :
    Option (List Nat × Store) :=
  match loadSigningKeyF importK sha1 genPub genPriv keyPref 2 st with
  | none => none
  | some ((kid, sk), st2) =>
    let encHeader := b64urlStringify (asciiToUint8Array (jsonStringify (headerObj kid)))
    let encPayload := b64urlStringify (asciiToUint8Array (jsonStringify (.str payload)))
    let encoded := encHeader ++ 46 :: encPayload
    let sig := csign sk (asciiToUint8Array encoded)
    some (encoded ++ 46 :: b64urlStringify sig, st2)

/-- The errors verifyToken / parseJWT can raise.  The first, sixth and
seventh carry the exact source messages; the others stand for
engine-raised exceptions (InvalidCharacterError from atob, SyntaxError
from JSON.parse, the TypeError importKey raises when no key matches). -/
inductive JwtErr where
  | malformedParts
  | badBase64
  | badJson
  | unknownKey
  | badSigBase64
  | sigFailed
  | expired
deriving DecidableEq

structure ParsedJWT where
  toBeValidated : List Nat
  header : JSValue
  payload : JSValue
  signature : List Nat

/-- parseJWT: split on dots, demand exactly three parts, decode header and
payload as base64url utf-8 JSON, keep the signature segment encoded and the
first two segments byte-for-byte as the signing input. -/
def parseJWT (token : List Nat) : Except JwtErr ParsedJWT :=
  match splitSep 46 token with
  | [p0, p1, p2] =>
    match b64urlParse p0 with
    | none => .error .badBase64
    | some hb =>
      match jsonParse (utf8Decode hb) with
      | none => .error .badJson
      | some hv =>
        match b64urlParse p1 with
        | none => .error .badBase64
        | some pb =>
          match jsonParse (utf8Decode pb) with
          | none => .error .badJson
          | some pv => .ok ⟨p0 ++ 46 :: p1, hv, pv, p2⟩
  | _ => .error .malformedParts

/-- verifyToken: parse, resolve the public key by the header kid, verify
the signature over the preserved signing input, then reject when
claims.exp < now; signature failure is checked before expiry. -/
def verifyToken {K : Type} (fetchKey : Option JSValue → Option K)
    (cverify : K → List (Fin 256) → List (Fin 256) → Bool) (now : Int)
    (token : List Nat) : Except JwtErr JSValue :=
  match parseJWT token with
  | .error e => .error e
  | .ok jwt =>
    match fetchKey (getField jwt.header (jstr ("kid"))) with
    | none => .error .unknownKey
    | some key =>
      match b64urlParse jwt.signature with
      | none => .error .badSigBase64
      | some sigBytes =>
        if cverify key sigBytes (asciiToUint8Array jwt.toBeValidated) then
          if expLt (getField jwt.payload (jstr ("exp"))) now then .error .expired
          else .ok jwt.payload
        else .error .sigFailed

/-! ## index.ts: routing and proxying

External primitives as parameters: `fetchUp` (the outbound fetch inside
forwardRequest, none models a thrown network error), `cfgResp` (the
response of the fixed remote config fetch), `parseYaml` (the yaml parser
applied to the body, already shaped as the hosts mapping; none models a
parser throw), plus the verifier parameters of jwt.ts. -/

structure Workload where
  provider : List Nat
  host : List Nat
  wtype : List Nat
deriving DecidableEq

/-- The hosts mapping parsed from the declarative config. -/
def HostsConfig : Type := List (List Nat × Workload)

/-- JS object member access config[workloadName]. -/
def lookupWl (cfg : HostsConfig) (name : List Nat) : Option Workload :=
  (cfg.find? (fun p => decide (p.1 = name))).map (fun p => p.2)

structure HttpResp where
  status : Nat
  body : List Nat
deriving DecidableEq

structure OutboundCall where
  url : List Nat
  callMethod : List Nat
  hostHeader : List Nat
  hasBody : Bool
deriving DecidableEq

structure JSReq where
  path : List Nat
  query : List Nat
  method : List Nat

def toUpper (c : Nat) : Nat := if 97 ≤ c ∧ c ≤ 122 then c - 32 else c

/-- The dispatcher path split: split on slash then filter(Boolean). -/
def splitPath (p : List Nat) : List (List Nat) :=
  (splitSep 47 p).filter (fun seg => decide (seg ≠ []))

/-- forwardRequest.  Returns the response together with the outbound call
made (none when no fetch happened); fetchUp none models the fetch throwing
and the catch converts it to the fixed 500 text. -/
def forwardRequest (fetchUp : OutboundCall → Option HttpResp) (cfg : HostsConfig)
    (req : JSReq) : HttpResp × Option OutboundCall :=
  match splitPath req.path with
  | [] => (⟨400, jstr ("Invalid request path")⟩, none)
  | w :: rest =>
    match lookupWl cfg w with
    | none => (⟨404, jstr ("Workload ") ++ w ++ jstr (" not found")⟩, none)
    | some wl =>
      let remaining := List.intercalate [47] rest
      let target := jstr ("https://") ++ wl.host ++
        (if remaining = [] then [] else 47 :: remaining) ++ 63 :: req.query
      let call : OutboundCall :=
        ⟨target, req.method, wl.host,
         decide ((req.method.map toUpper) ∈ [jstr ("POST"), jstr ("PUT"), jstr ("PATCH")])⟩
      match fetchUp call with
      | some r => (r, some call)
      | none => (⟨500, jstr ("Error forwarding request to remote host")⟩, some call)

/-- getConfigKey: KEY_PREFIX followed by _workload_config. -/
def configName (keyPref : List Nat) : List Nat := keyPref ++ jstr ("_workload_config")

/-- Request-handling errors: the Hono HTTPException carrying its response,
a propagated jwt.ts error, or the yaml parser throwing. -/
inductive AppErr where
  | httpEx (status : Nat) (msg : List Nat)
  | jwtErr (e : JwtErr)
  | yamlErr
deriving DecidableEq

def configToJSON (cfg : HostsConfig) : JSValue :=
  .obj (cfg.map (fun p => (p.1, .obj [(jstr ("provider"), .str p.2.provider),
    (jstr ("host"), .str p.2.host), (jstr ("type"), .str p.2.wtype)])))

def workloadOfJSON (v : JSValue) : Option Workload :=
  match getField v (jstr ("provider")), getField v (jstr ("host")),
      getField v (jstr ("type")) with
  | some (.str p), some (.str h), some (.str t) => some ⟨p, h, t⟩
  | _, _, _ => none

/-- Reading a persisted hosts mapping back from JSON (modelling boundary:
the worker trusts the stored shape). -/
def configOfJSON : JSValue → Option HostsConfig
  | .obj fs =>
    fs.foldr (fun p acc =>
      match acc, workloadOfJSON p.2 with
      | some l, some w => some ((p.1, w) :: l)
      | _, _ => none) (some [])
  | _ => none

structure FetchResp where
  status : Nat
  body : List Nat

/-- refreshConfig: fetch the fixed remote config; a non-200 status throws
the HTTPException before any KV write happens; otherwise parse the yaml
body and persist the whole parsed mapping under the config key. -/
def refreshConfig (parseYaml : List Nat → Option HostsConfig) (cfgResp : FetchResp)
    (keyPref : List Nat) (st : Store) : Except AppErr HostsConfig × Store :=
  if cfgResp.status ≠ 200 then
    (.error (.httpEx 500 (jstr ("failed to get config from github"))), st)
  else
    match parseYaml cfgResp.body with
    | none => (.error .yamlErr, st)
    | some tbl =>
      (.ok tbl, putStore st (configName keyPref) (jsonStringify (configToJSON tbl)))

/-- JS truthiness, for claims.email or the unknown-user fallback. -/
def jsTruthy : JSValue → Bool
  | .null => false
  | .bool b => b
  | .num n => decide (n ≠ 0)
  | .str s => decide (s ≠ [])
  | .arr _ => true
  | .obj _ => true

/-- Error toString texts; only the three repo-authored messages are
load-bearing, the engine-raised ones are environment-specific placeholders. -/
def errToString : JwtErr → List Nat
  | .malformedParts => jstr ("Error: token must have 3 parts")
  | .sigFailed => jstr ("Error: failed to verify token")
  | .expired => jstr ("Error: expired token")
  | .badBase64 => jstr ("InvalidCharacterError")
  | .badSigBase64 => jstr ("InvalidCharacterError")
  | .badJson => jstr ("SyntaxError")
  | .unknownKey => jstr ("TypeError")

def appErrToString : AppErr → List Nat
  | .jwtErr e => errToString e
  | .yamlErr => jstr ("YAMLParseError")
  | .httpEx _ m => m

/-- app.onError: an HTTPException renders its own response; any other error
becomes the 500 JSON carrying the generic message next to err.toString(). -/
def onError : AppErr → HttpResp
  | .httpEx st m => ⟨st, m⟩
  | .jwtErr e => ⟨500, jsonStringify (.obj
      [(jstr ("message"), .str (jstr ("something went wrong"))),
       (jstr ("err"), .str (errToString e))])⟩
  | .yamlErr => ⟨500, jsonStringify (.obj
      [(jstr ("message"), .str (jstr ("something went wrong"))),
       (jstr ("err"), .str (jstr ("YAMLParseError")))])⟩

/-- getUserAndHistory: verify the CF_Authorization cookie (empty string
when absent) and render the user and history JSON. -/
def getUserAndHistory {K : Type} (fetchKey : Option JSValue → Option K)
    (cverify : K → List (Fin 256) → List (Fin 256) → Bool) (now : Int)
    (cookie : Option (List Nat)) : Except AppErr (List Nat) :=
  match verifyToken fetchKey cverify now (cookie.getD []) with
  | .error e => .error (.jwtErr e)
  | .ok claims =>
    let userv : JSValue :=
      match getField claims (jstr ("email")) with
      | some v => if jsTruthy v then v else .str (jstr ("unknown user"))
      | none => .str (jstr ("unknown user"))
    .ok (jsonStringify (.obj [(jstr ("user"), userv),
      (jstr ("history"), .arr [.str (jstr ("insert identity history0 here")),
        .str (jstr ("insert identity history1 here"))])]))

def methodsAll : List (List Nat) :=
  [jstr ("GET"), jstr ("POST"), jstr ("PUT"), jstr ("DELETE"), jstr ("PATCH")]

/-- Whether a registered workload route matches the request: the loop in
handleRequest registers, for each configured workload whose provider is
registered (example is the only provider), an exact GET route and
slash-wildcard routes for the five methods. -/
def matchesWorkloadRoute (cfg : HostsConfig) (req : JSReq) : Bool :=
  cfg.any (fun p =>
    decide (p.2.provider = jstr ("example")) &&
    ((decide (req.path = 47 :: p.1) && decide (req.method = jstr ("GET"))) ||
     (decide ((47 :: p.1 ++ [47]) <+: req.path) && decide (req.method ∈ methodsAll))))

/-- The Hono app built in handleRequest, dispatching one request: workload
routes first (registration order), then GET /config, then the catch-all
GET identity route, otherwise the framework not-found response. -/
def appFetch {K : Type} (fetchUp : OutboundCall → Option HttpResp)
    (parseYaml : List Nat → Option HostsConfig) (cfgResp : FetchResp)
    (fetchKey : Option JSValue → Option K)
    (cverify : K → List (Fin 256) → List (Fin 256) → Bool) (now : Int)
    (keyPref : List Nat) (cfg : HostsConfig) (st : Store) (req : JSReq)
    (cookie : Option (List Nat)) : HttpResp × Store :=
  if matchesWorkloadRoute cfg req then
    ((forwardRequest fetchUp cfg req).1, st)
  else if decide (req.path = jstr ("/config")) && decide (req.method = jstr ("GET")) then
    match refreshConfig parseYaml cfgResp keyPref st with
    | (.ok tbl, st2) => (⟨200, jsonStringify (configToJSON tbl)⟩, st2)
    | (.error e, st2) => (onError e, st2)
  else if decide (req.method = jstr ("GET")) then
    match getUserAndHistory fetchKey cverify now cookie with
    | .ok body => (⟨200, body⟩, st)
    | .error e => (onError e, st)
  else (⟨404, jstr ("404 Not Found")⟩, st)

/-- handleRequest: read the persisted config (refreshing from the remote
source when absent), build the app from it, dispatch the request.  A
refresh failure before the app exists escapes the worker; it is modelled
as that error rendered. -/
def handleRequest {K : Type} (fetchUp : OutboundCall → Option HttpResp)
    (parseYaml : List Nat → Option HostsConfig) (cfgResp : FetchResp)
    (fetchKey : Option JSValue → Option K)
    (cverify : K → List (Fin 256) → List (Fin 256) → Bool) (now : Int)
    (keyPref : List Nat) (st : Store) (req : JSReq)
    (cookie : Option (List Nat)) : HttpResp × Store :=
  match (st (configName keyPref)).bind (fun raw => (jsonParse raw).bind configOfJSON) with
  | some cfg => appFetch fetchUp parseYaml cfgResp fetchKey cverify now keyPref cfg st req cookie
  | none =>
    match refreshConfig parseYaml cfgResp keyPref st with
    | (.ok tbl, st2) =>
      appFetch fetchUp parseYaml cfgResp fetchKey cverify now keyPref tbl st2 req cookie
    | (.error e, st2) => (onError e, st2)

/-! ## Claims: key generation and config -/

/-- C3: whenever generateKeys runs, the persisted record and the returned
keyset carry a keyId equal to the first 64 hex characters of the sha1 hash
of the JSON serialization of the exported public key. -/
theorem C3_generated_kid (sha1 : List (Fin 256) → List (Fin 256))
    (genPub genPriv : JSValue) (keyPref : List Nat) (st : Store) :
    (generateKeys sha1 genPub genPriv keyPref st).2 (keysName keyPref) =
      some (jsonStringify (keysetToJSON ⟨genPub, genPriv,
        (((sha1 (utf8Encode (jsonStringify genPub))).map byteHex).flatten).take 64⟩)) ∧
    (generateKeys sha1 genPub genPriv keyPref st).1.kid =
      (((sha1 (utf8Encode (jsonStringify genPub))).map byteHex).flatten).take 64 := by
  constructor
  · simp [generateKeys, putStore, generateKID]
  · simp [generateKeys, generateKID]

/-- C7: when the remote config fetch has a non-200 status, refreshConfig
fails with the 500 upstream-config HTTPException and returns the store
unchanged: no write happens on the error path. -/
theorem C7_refresh_non200 (parseYaml : List Nat → Option HostsConfig)
    (cfgResp : FetchResp) (keyPref : List Nat) (st : Store)
    (h : cfgResp.status ≠ 200) :
    refreshConfig parseYaml cfgResp keyPref st =
      (.error (.httpEx 500 (jstr ("failed to get config from github"))), st) := by
  simp [refreshConfig, h]

/-- C7 witness: a 429 upstream response against an empty store. -/
theorem C7_refresh_non200_witness :
    refreshConfig (fun _ => none) ⟨429, []⟩ [] (fun _ => none) =
      (.error (.httpEx 500 (jstr ("failed to get config from github"))), fun _ => none) :=
  C7_refresh_non200 _ _ _ _ (by decide)

/-! ## Claims: dispatcher -/

/-- C5 (amended, dispatcher level): whenever forwardRequest sees a first
path segment that is not a key of the routing table, it answers 404 with a
body naming the unresolved workload; but a GET whose first segment matches
no workload never reaches the dispatcher in the assembled app (see the
counterexample). -/
theorem C5_forward_miss_404 (fetchUp : OutboundCall → Option HttpResp)
    (cfg : HostsConfig) (req : JSReq) (w : List Nat) (rest : List (List Nat))
    (hsplit : splitPath req.path = w :: rest) (hmiss : lookupWl cfg w = none) :
    forwardRequest fetchUp cfg req =
      (⟨404, jstr ("Workload ") ++ w ++ jstr (" not found")⟩, none) := by
  simp [forwardRequest, hsplit, hmiss]

/-- C5 witness: the dispatcher itself, handed an empty table, answers 404
naming doesnotexist. -/
theorem C5_forward_miss_404_witness :
    forwardRequest (fun _ => none) [] ⟨jstr ("/doesnotexist"), [], jstr ("GET")⟩ =
      (⟨404, jstr ("Workload ") ++ jstr ("doesnotexist") ++ jstr (" not found")⟩, none) :=
  C5_forward_miss_404 _ _ _ (jstr ("doesnotexist")) [] rfl rfl

/-- C5 counterexample: in the assembled app with an empty routing table, a
GET whose first segment matches no workload falls through to the catch-all
identity route and (with no auth cookie) yields status 500, not 404. -/
theorem C5_unmatched_404_cex :
    ((handleRequest (K := Unit) (fun _ => none) (fun _ => none) ⟨200, []⟩
        (fun _ => some ()) (fun _ _ _ => true) 0 (jstr ("default"))
        (putStore (fun _ => none) (configName (jstr ("default")))
          (jsonStringify (configToJSON [])))
        ⟨jstr ("/doesnotexist"), [], jstr ("GET")⟩ none).1).status = 500 ∧
    (500 : Nat) ≠ 404 :=
  ⟨rfl, by decide⟩

/-- C4 (amended): on a routing hit the outbound URL is https:// plus the
host, the remaining path segments joined by slashes with a leading slash
only when any remain, then a question mark plus the serialized query
string; the question mark is appended even when the query is empty.  The
method is forwarded as-is and the host header is the workload host. -/
theorem C4_target_url (fetchUp : OutboundCall → Option HttpResp) (cfg : HostsConfig)
    (req : JSReq) (w : List Nat) (rest : List (List Nat)) (wl : Workload)
    (hsplit : splitPath req.path = w :: rest) (hhit : lookupWl cfg w = some wl) :
    (forwardRequest fetchUp cfg req).2 = some
      ⟨jstr ("https://") ++ wl.host ++
        (if List.intercalate [47] rest = [] then [] else 47 :: List.intercalate [47] rest) ++
        63 :: req.query,
       req.method, wl.host,
       decide ((req.method.map toUpper) ∈ [jstr ("POST"), jstr ("PUT"), jstr ("PATCH")])⟩ := by
  simp only [forwardRequest, hsplit, hhit]
  cases fetchUp _ <;> rfl

/-- C4 witness: /workload1/path with query param=value against
workload1 at foo.com. -/
theorem C4_target_url_witness :
    (forwardRequest (fun _ => some ⟨200, []⟩)
      [(jstr ("workload1"), ⟨jstr ("example"), jstr ("foo.com"), jstr ("web")⟩)]
      ⟨jstr ("/workload1/path"), jstr ("param=value"), jstr ("GET")⟩).2 = some
      ⟨jstr ("https://") ++ jstr ("foo.com") ++
        (if List.intercalate [47] [jstr ("path")] = [] then []
         else 47 :: List.intercalate [47] [jstr ("path")]) ++
        63 :: jstr ("param=value"),
       jstr ("GET"), jstr ("foo.com"),
       decide ((jstr ("GET")).map toUpper ∈ [jstr ("POST"), jstr ("PUT"), jstr ("PATCH")])⟩ :=
  C4_target_url _ _ _ (jstr ("workload1")) [jstr ("path")]
    ⟨jstr ("example"), jstr ("foo.com"), jstr ("web")⟩ rfl rfl

/-- C4 counterexample: with no remaining path and no query string the
target URL ends in a question mark, not the bare host the claim states. -/
theorem C4_bare_host_cex :
    ((forwardRequest (fun _ => some ⟨200, []⟩)
        [(jstr ("workload1"), ⟨jstr ("example"), jstr ("foo.com"), jstr ("web")⟩)]
        ⟨jstr ("/workload1"), [], jstr ("GET")⟩).2.map (fun c => c.url)) =
      some (jstr ("https://foo.com?")) ∧
    jstr ("https://foo.com?") ≠ jstr ("https://foo.com") :=
  ⟨rfl, by decide⟩

/-- C6 (amended): a dispatch failure inside forwardRequest produces the
fixed 500 body with no internal text; but a token-verification failure
reaches the top-level error handler, whose JSON body embeds the underlying
error text next to the generic message. -/
theorem C6_error_bodies (fetchUp : OutboundCall → Option HttpResp)
    (cfg : HostsConfig) (req : JSReq) (w : List Nat) (rest : List (List Nat))
    (wl : Workload)
    (hsplit : splitPath req.path = w :: rest) (hhit : lookupWl cfg w = some wl)
    (hfail : ∀ c, fetchUp c = none) :
    (forwardRequest fetchUp cfg req).1 =
      ⟨500, jstr ("Error forwarding request to remote host")⟩ ∧
    ∀ e : JwtErr, ∃ pre post,
      (onError (.jwtErr e)).body = pre ++ errToString e ++ post := by
  constructor
  · simp [forwardRequest, hsplit, hhit, hfail]
  · intro e
    refine ⟨jstr ("\x7b\"message\":\"something went wrong\",\"err\":\""),
      jstr ("\"\x7d"), ?_⟩
    cases e <;> rfl

/-- C6 witness: a network failure forwarding /workload1/path yields exactly
the fixed 500 message. -/
theorem C6_error_bodies_witness :
    (forwardRequest (fun _ => none)
      [(jstr ("workload1"), ⟨jstr ("example"), jstr ("foo.com"), jstr ("web")⟩)]
      ⟨jstr ("/workload1/path"), [], jstr ("GET")⟩).1 =
      ⟨500, jstr ("Error forwarding request to remote host")⟩ :=
  (C6_error_bodies (fun _ => none)
    [(jstr ("workload1"), ⟨jstr ("example"), jstr ("foo.com"), jstr ("web")⟩)]
    ⟨jstr ("/workload1/path"), [], jstr ("GET")⟩ (jstr ("workload1")) [jstr ("path")]
    ⟨jstr ("example"), jstr ("foo.com"), jstr ("web")⟩ rfl rfl (fun _ => rfl)).1

/-- C6 counterexample: a GET that falls to the identity route with no auth
cookie produces an error body embedding the underlying error text (token
must have 3 parts), contradicting that error bodies only ever carry a
fixed generic message. -/
theorem C6_leak_cex :
    ∃ pre post,
      ((handleRequest (K := Unit) (fun _ => none) (fun _ => none) ⟨200, []⟩
          (fun _ => some ()) (fun _ _ _ => true) 0 (jstr ("default"))
          (putStore (fun _ => none) (configName (jstr ("default")))
            (jsonStringify (configToJSON [])))
          ⟨jstr ("/doesnotexist"), [], jstr ("GET")⟩ none).1).body =
        pre ++ jstr ("token must have 3 parts") ++ post :=
  ⟨jstr ("\x7b\"message\":\"something went wrong\",\"err\":\"Error: "),
   jstr ("\"\x7d"), rfl⟩

/-! ## Claims: verification -/

/-- C2 (amended): a parsed token whose payload carries a numeric exp
strictly below the current time fails with the expired-token error when
its signature verifies, and with the signature error when it does not: the
signature check precedes the expiry check, so expiry failure is not
independent of signature validity. -/
theorem C2_expired_checks {K : Type} (fetchKey : Option JSValue → Option K)
    (cverify : K → List (Fin 256) → List (Fin 256) → Bool) (now : Int)
    (token : List Nat) (jwt : ParsedJWT) (key : K) (sb : List (Fin 256)) (e : Int)
    (hparse : parseJWT token = .ok jwt)
    (hkey : fetchKey (getField jwt.header (jstr ("kid"))) = some key)
    (hsig : b64urlParse jwt.signature = some sb)
    (hexp : getField jwt.payload (jstr ("exp")) = some (.num e))
    (hlt : e < now) :
    (cverify key sb (asciiToUint8Array jwt.toBeValidated) = true →
      verifyToken fetchKey cverify now token = .error .expired) ∧
    (cverify key sb (asciiToUint8Array jwt.toBeValidated) = false →
      verifyToken fetchKey cverify now token = .error .sigFailed) := by
  constructor <;> intro hv <;>
    simp [verifyToken, hparse, hkey, hsig, hv, expLt, hexp, toNumber, hlt]

/-- C2 witness: a well-formed token with exp 0 at time 100 under an
always-true verifier is rejected as expired. -/
theorem C2_expired_checks_witness :
    verifyToken (K := Unit) (fun _ => some ()) (fun _ _ _ => true) 100
      (b64urlStringify (asciiToUint8Array (jsonStringify (headerObj (jstr ("k"))))) ++
        46 :: b64urlStringify (asciiToUint8Array
          (jsonStringify (.obj [(jstr ("exp"), .num 0)]))) ++ 46 :: []) =
      .error .expired := by
  have hp : parseJWT
      (b64urlStringify (asciiToUint8Array (jsonStringify (headerObj (jstr ("k"))))) ++
        46 :: b64urlStringify (asciiToUint8Array
          (jsonStringify (.obj [(jstr ("exp"), .num 0)]))) ++ 46 :: []) =
      .ok ⟨b64urlStringify (asciiToUint8Array (jsonStringify (headerObj (jstr ("k"))))) ++
        46 :: b64urlStringify (asciiToUint8Array
          (jsonStringify (.obj [(jstr ("exp"), .num 0)]))),
       headerObj (jstr ("k")), .obj [(jstr ("exp"), .num 0)], []⟩ := rfl
  exact (C2_expired_checks (fun _ => some ()) (fun _ _ _ => true) 100 _ _ () [] 0
    hp rfl rfl rfl (by decide)).1 rfl

/-- C2 counterexample: the same expired well-formed token with an invalid
signature fails with the signature error, not the expired-token error, so
the claim that expiry failure happens regardless of signature validity is
false. -/
theorem C2_sig_precedes_expiry_cex :
    verifyToken (K := Unit) (fun _ => some ()) (fun _ _ _ => false) 100
      (b64urlStringify (asciiToUint8Array (jsonStringify (headerObj (jstr ("k"))))) ++
        46 :: b64urlStringify (asciiToUint8Array
          (jsonStringify (.obj [(jstr ("exp"), .num 0)]))) ++ 46 :: []) =
      .error .sigFailed ∧
    (parseJWT (b64urlStringify (asciiToUint8Array (jsonStringify (headerObj (jstr ("k"))))) ++
        46 :: b64urlStringify (asciiToUint8Array
          (jsonStringify (.obj [(jstr ("exp"), .num 0)]))) ++ 46 :: [])).toOption.map
      (fun j => getField j.payload (jstr ("exp"))) = some (some (.num 0)) ∧
    JwtErr.sigFailed ≠ JwtErr.expired :=
  ⟨rfl, rfl, by decide⟩

/-- C10 (amended): a token that parses and passes signature verification is
accepted with its claims when the payload has no exp member at all, or when
exp is a number equal to the current time; a present non-numeric exp can
still be treated as expired through JS numeric coercion (see the
counterexample), which is what forces narrowing the claim wording from
no numeric exp to no exp member. -/
theorem C10_no_exp_or_equal {K : Type} (fetchKey : Option JSValue → Option K)
    (cverify : K → List (Fin 256) → List (Fin 256) → Bool) (now : Int)
    (token : List Nat) (jwt : ParsedJWT) (key : K) (sb : List (Fin 256))
    (hparse : parseJWT token = .ok jwt)
    (hkey : fetchKey (getField jwt.header (jstr ("kid"))) = some key)
    (hsig : b64urlParse jwt.signature = some sb)
    (hver : cverify key sb (asciiToUint8Array jwt.toBeValidated) = true)
    (hexp : getField jwt.payload (jstr ("exp")) = none ∨
      getField jwt.payload (jstr ("exp")) = some (.num now)) :
    verifyToken fetchKey cverify now token = .ok jwt.payload := by
  rcases hexp with he | he <;>
    simp [verifyToken, hparse, hkey, hsig, hver, expLt, he, toNumber]

/-- C10 witness: a signature-valid token whose payload has no exp member
is accepted with its claims. -/
theorem C10_no_exp_or_equal_witness :
    verifyToken (K := Unit) (fun _ => some ()) (fun _ _ _ => true) 100
      (b64urlStringify (asciiToUint8Array (jsonStringify (headerObj (jstr ("k"))))) ++
        46 :: b64urlStringify (asciiToUint8Array
          (jsonStringify (.obj [(jstr ("a"), .num 1)]))) ++ 46 :: []) =
      .ok (.obj [(jstr ("a"), .num 1)]) := by
  have hp : parseJWT
      (b64urlStringify (asciiToUint8Array (jsonStringify (headerObj (jstr ("k"))))) ++
        46 :: b64urlStringify (asciiToUint8Array
          (jsonStringify (.obj [(jstr ("a"), .num 1)]))) ++ 46 :: []) =
      .ok ⟨b64urlStringify (asciiToUint8Array (jsonStringify (headerObj (jstr ("k"))))) ++
        46 :: b64urlStringify (asciiToUint8Array
          (jsonStringify (.obj [(jstr ("a"), .num 1)]))),
       headerObj (jstr ("k")), .obj [(jstr ("a"), .num 1)], []⟩ := rfl
  exact C10_no_exp_or_equal (fun _ => some ()) (fun _ _ _ => true) 100 _ _ () []
    hp rfl rfl rfl (Or.inl rfl)

/-- C10 counterexample: a signature-valid token whose payload carries exp
null has no numeric exp claim, yet it is rejected as expired: null coerces
to 0 under the JS relational comparison and 0 is below the current time. -/
theorem C10_null_exp_cex :
    verifyToken (K := Unit) (fun _ => some ()) (fun _ _ _ => true) 1
      (b64urlStringify (asciiToUint8Array (jsonStringify (headerObj (jstr ("k"))))) ++
        46 :: b64urlStringify (asciiToUint8Array
          (jsonStringify (.obj [(jstr ("exp"), .null)]))) ++ 46 :: []) =
      .error .expired ∧
    (parseJWT (b64urlStringify (asciiToUint8Array (jsonStringify (headerObj (jstr ("k"))))) ++
        46 :: b64urlStringify (asciiToUint8Array
          (jsonStringify (.obj [(jstr ("exp"), .null)]))) ++ 46 :: [])).toOption.map
      (fun j => getField j.payload (jstr ("exp"))) = some (some .null) :=
  ⟨rfl, rfl⟩

/-! ## Claims: signing-handle retry -/

theorem keysetOfJSON_toJSON (ks : KeySet) : keysetOfJSON (keysetToJSON ks) = some ks := rfl

/-- C9: with no stored keyset, obtaining the signing handle triggers key
generation as a side effect and succeeds after exactly one retry: fuel 1
runs out, fuel 2 yields the handle, extra fuel changes nothing, and the
generated record is persisted.  The reparse hypothesis states that the
just-written record reads back (store coherence within one invocation). -/
theorem C9_signing_handle_retry {S : Type} (importK : JSValue → S)
    (sha1 : List (Fin 256) → List (Fin 256)) (genPub genPriv : JSValue)
    (keyPref : List Nat) (st : Store)
    (habsent : getKeyset st keyPref = none)
    (hre : jsonParse (jsonStringify (keysetToJSON ⟨genPub, genPriv,
        generateKID sha1 (jsonStringify genPub)⟩)) =
      some (keysetToJSON ⟨genPub, genPriv, generateKID sha1 (jsonStringify genPub)⟩)) :
    loadSigningKeyF importK sha1 genPub genPriv keyPref 1 st = none ∧
    (∀ n : Nat, loadSigningKeyF importK sha1 genPub genPriv keyPref (n + 2) st =
      some ((generateKID sha1 (jsonStringify genPub), importK genPriv),
        (generateKeys sha1 genPub genPriv keyPref st).2)) ∧
    (generateKeys sha1 genPub genPriv keyPref st).2 (keysName keyPref) =
      some (jsonStringify (keysetToJSON ⟨genPub, genPriv,
        generateKID sha1 (jsonStringify genPub)⟩)) := by
  have hst2 : (generateKeys sha1 genPub genPriv keyPref st).2 (keysName keyPref) =
      some (jsonStringify (keysetToJSON ⟨genPub, genPriv,
        generateKID sha1 (jsonStringify genPub)⟩)) := by
    simp [generateKeys, putStore]
  have hget2 : getKeyset (generateKeys sha1 genPub genPriv keyPref st).2 keyPref =
      some ⟨genPub, genPriv, generateKID sha1 (jsonStringify genPub)⟩ := by
    simp [getKeyset, hst2, hre, keysetOfJSON_toJSON]
  refine ⟨?_, fun n => ?_, hst2⟩
  · simp [loadSigningKeyF, habsent, loadPublicKey]
  · simp [loadSigningKeyF, habsent, loadPublicKey, hget2]

/-- C9 witness: empty store and trivial crypto parameters: fuel 1 fails,
fuel 2 returns the handle. -/
theorem C9_signing_handle_retry_witness :
    loadSigningKeyF (S := Unit) (fun _ => ()) (fun _ => []) .null .null [] 1
      (fun _ => none) = none ∧
    loadSigningKeyF (S := Unit) (fun _ => ()) (fun _ => []) .null .null [] 2
      (fun _ => none) =
      some ((generateKID (fun _ => []) (jsonStringify .null), ()),
        (generateKeys (fun _ => []) .null .null [] (fun _ => none)).2) := by
  have h := C9_signing_handle_retry (S := Unit) (fun _ => ()) (fun _ => []) .null .null []
    (fun _ => none) rfl rfl
  exact ⟨h.1, h.2.1 0⟩

/-! ## Claims: config replacement -/

/-- C8 (amended): a GET /config against a store holding a prior persisted
routing table whose registered workload routes do not capture the /config
path (in particular, no workload named config with a registered provider),
with the remote source answering 200 and a body parsing to T, responds 200
with exactly the serialization of T and persists exactly T under the
config key: the prior record is fully replaced, never merged.  A prior
table that does register a route over /config shadows the refresh route
instead (see the counterexample). -/
theorem C8_config_refresh_replaces {K : Type}
    (fetchUp : OutboundCall → Option HttpResp)
    (parseYaml : List Nat → Option HostsConfig) (cfgResp : FetchResp)
    (fetchKey : Option JSValue → Option K)
    (cverify : K → List (Fin 256) → List (Fin 256) → Bool) (now : Int)
    (keyPref : List Nat) (st : Store) (raw : List Nat) (prior T : HostsConfig)
    (cookie : Option (List Nat)) (req : JSReq)
    (hstored : st (configName keyPref) = some raw)
    (hparse : (jsonParse raw).bind configOfJSON = some prior)
    (hpath : req.path = jstr ("/config")) (hmethod : req.method = jstr ("GET"))
    (hnoshadow : matchesWorkloadRoute prior req = false)
    (hstatus : cfgResp.status = 200) (hyaml : parseYaml cfgResp.body = some T) :
    handleRequest fetchUp parseYaml cfgResp fetchKey cverify now keyPref st req cookie =
      (⟨200, jsonStringify (configToJSON T)⟩,
       putStore st (configName keyPref) (jsonStringify (configToJSON T))) := by
  simp [handleRequest, hstored, hparse, appFetch, hnoshadow, hpath, hmethod,
    refreshConfig, hstatus, hyaml]

/-- C8 counterexample: a prior persisted table containing a workload
literally named config (with the registered provider example) makes the
workload loop register its route before the refresh route, and the first
match wins: GET /config is proxied to that workload's backend instead of
refreshing, even though the remote source would have delivered a fresh
table; the response is the proxied body, not the new table, and the old
record stays persisted. -/
theorem C8_config_shadow_cex :
    (handleRequest (K := Unit) (fun _ => some ⟨200, jstr ("proxied")⟩)
        (fun _ => some [(jstr ("workload1"),
          ⟨jstr ("example"), jstr ("example.com"), jstr ("web")⟩)])
        ⟨200, []⟩ (fun _ => some ()) (fun _ _ _ => true) 0 (jstr ("default"))
        (putStore (fun _ => none) (configName (jstr ("default")))
          (jsonStringify (configToJSON [(jstr ("config"),
            ⟨jstr ("example"), jstr ("backend.com"), jstr ("web")⟩)])))
        ⟨jstr ("/config"), [], jstr ("GET")⟩ none).1 =
      ⟨200, jstr ("proxied")⟩ ∧
    (handleRequest (K := Unit) (fun _ => some ⟨200, jstr ("proxied")⟩)
        (fun _ => some [(jstr ("workload1"),
          ⟨jstr ("example"), jstr ("example.com"), jstr ("web")⟩)])
        ⟨200, []⟩ (fun _ => some ()) (fun _ _ _ => true) 0 (jstr ("default"))
        (putStore (fun _ => none) (configName (jstr ("default")))
          (jsonStringify (configToJSON [(jstr ("config"),
            ⟨jstr ("example"), jstr ("backend.com"), jstr ("web")⟩)])))
        ⟨jstr ("/config"), [], jstr ("GET")⟩ none).2 (configName (jstr ("default"))) =
      some (jsonStringify (configToJSON [(jstr ("config"),
        ⟨jstr ("example"), jstr ("backend.com"), jstr ("web")⟩)])) ∧
    jstr ("proxied") ≠ jsonStringify (configToJSON [(jstr ("workload1"),
      ⟨jstr ("example"), jstr ("example.com"), jstr ("web")⟩)]) ∧
    jsonStringify (configToJSON [(jstr ("config"),
        ⟨jstr ("example"), jstr ("backend.com"), jstr ("web")⟩)]) ≠
      jsonStringify (configToJSON [(jstr ("workload1"),
        ⟨jstr ("example"), jstr ("example.com"), jstr ("web")⟩)]) := by
  refine ⟨rfl, rfl, by decide, by decide⟩

/-- C8 witness: a stale oldWorkload record is wholly replaced by the
refreshed workload1 table, which is also the response. -/
theorem C8_config_refresh_replaces_witness :
    handleRequest (K := Unit) (fun _ => none)
      (fun _ => some [(jstr ("workload1"),
        ⟨jstr ("example"), jstr ("example.com"), jstr ("web")⟩)])
      ⟨200, []⟩ (fun _ => some ()) (fun _ _ _ => true) 0 (jstr ("default"))
      (putStore (fun _ => none) (configName (jstr ("default")))
        (jsonStringify (configToJSON [(jstr ("oldWorkload"),
          ⟨jstr ("example"), jstr ("example.com"), jstr ("web")⟩)])))
      ⟨jstr ("/config"), [], jstr ("GET")⟩ none =
      (⟨200, jsonStringify (configToJSON [(jstr ("workload1"),
          ⟨jstr ("example"), jstr ("example.com"), jstr ("web")⟩)])⟩,
       putStore (putStore (fun _ => none) (configName (jstr ("default")))
          (jsonStringify (configToJSON [(jstr ("oldWorkload"),
            ⟨jstr ("example"), jstr ("example.com"), jstr ("web")⟩)])))
        (configName (jstr ("default")))
        (jsonStringify (configToJSON [(jstr ("workload1"),
          ⟨jstr ("example"), jstr ("example.com"), jstr ("web")⟩)]))) := by
  have hp : (jsonParse (jsonStringify (configToJSON [(jstr ("oldWorkload"),
      ⟨jstr ("example"), jstr ("example.com"), jstr ("web")⟩)]))).bind configOfJSON =
      some [(jstr ("oldWorkload"),
        ⟨jstr ("example"), jstr ("example.com"), jstr ("web")⟩)] := rfl
  exact C8_config_refresh_replaces _ _ _ _ _ _ _ _ _ _ _ _ _ rfl hp rfl rfl rfl rfl rfl

/-! ## Claims: sign / verify round trip -/

theorem b64urlStringify_not_mem_46 (bs : List (Fin 256)) :
    (46 : Nat) ∉ b64urlStringify bs := by
  intro hm
  exact b64urlStringify_ne46 bs 46 hm rfl

theorem jsonQuote_ascii (s : List Nat) (h : asciiStr s = true) :
    asciiStr (jsonQuote s) = true := by
  have hq := quoteBody_ascii s h
  simp only [jsonQuote, asciiStr, List.all_cons, List.all_append] at *
  simp [hq]

theorem headerObj_ascii (kid : List Nat) (h : asciiStr kid = true) :
    asciiStr (jsonStringify (headerObj kid)) = true := by
  have hs := headerBytes_spine kid []
  rw [List.append_nil] at hs
  have hq := quoteBody_ascii kid h
  rw [hs]
  simp only [asciiStr, List.all_cons, List.all_append] at *
  simp [hq]

theorem headerBytes_len (kid : List Nat) :
    3 ≤ (jsonStringify (headerObj kid)).length := by
  have hs := headerBytes_spine kid []
  rw [List.append_nil] at hs
  rw [hs]
  simp

/-- JSON.parse of the serialized header is the header value. -/
theorem jsonParse_header (kid : List Nat) (h : asciiStr kid = true) :
    jsonParse (jsonStringify (headerObj kid)) = some (headerObj kid) := by
  unfold jsonParse
  obtain ⟨f, hf⟩ : ∃ f, (jsonStringify (headerObj kid)).length + 1 = f + 4 :=
    ⟨(jsonStringify (headerObj kid)).length - 3, by have := headerBytes_len kid; omega⟩
  rw [hf]
  have hp := parseV_header f kid h []
  rw [List.append_nil] at hp
  rw [hp]
  simp [skipWs]

/-- JSON.parse of a stringified ASCII string value is that string. -/
theorem jsonParse_strval (s : List Nat) (h : asciiStr s = true) :
    jsonParse (jsonStringify (.str s)) = some (.str s) := by
  unfold jsonParse
  have hp := parseV_quote (jsonQuote s).length s h []
  rw [List.append_nil] at hp
  have he : jsonStringify (.str s) = jsonQuote s := rfl
  rw [he, hp]
  simp [skipWs]

theorem headerObj_kid (kid : List Nat) :
    getField (headerObj kid) (jstr ("kid")) = some (.str kid) := rfl

/-- parseJWT of a token assembled exactly the way signJWT assembles one. -/
theorem parseJWT_signed (kid payload : List Nat) (sig : List (Fin 256))
    (hkid : asciiStr kid = true) (hp : asciiStr payload = true) :
    parseJWT
      ((b64urlStringify (asciiToUint8Array (jsonStringify (headerObj kid))) ++
        46 :: b64urlStringify (asciiToUint8Array (jsonStringify (.str payload)))) ++
        46 :: b64urlStringify sig) =
      .ok ⟨b64urlStringify (asciiToUint8Array (jsonStringify (headerObj kid))) ++
        46 :: b64urlStringify (asciiToUint8Array (jsonStringify (.str payload))),
        headerObj kid, .str payload, b64urlStringify sig⟩ := by
  have hsplit : splitSep 46
      ((b64urlStringify (asciiToUint8Array (jsonStringify (headerObj kid))) ++
        46 :: b64urlStringify (asciiToUint8Array (jsonStringify (.str payload)))) ++
        46 :: b64urlStringify sig) =
      [b64urlStringify (asciiToUint8Array (jsonStringify (headerObj kid))),
       b64urlStringify (asciiToUint8Array (jsonStringify (.str payload))),
       b64urlStringify sig] := by
    rw [List.append_assoc, List.cons_append]
    exact splitSep_three 46 _ _ _ (b64urlStringify_not_mem_46 _)
      (b64urlStringify_not_mem_46 _) (b64urlStringify_not_mem_46 _)
  unfold parseJWT
  rw [hsplit]
  simp only [b64url_roundtrip]
  rw [utf8Decode_ascii_bytes _ (headerObj_ascii kid hkid),
    utf8Decode_ascii_bytes _ (by simpa using jsonQuote_ascii payload hp),
    jsonParse_header kid hkid, jsonParse_strval payload hp]

/-- C1 (amended): for an ASCII payload, signing against a stored keyset
whose key id is ASCII and then verifying with the verifier resolving the
same key material succeeds and returns exactly the payload as the claims,
at any verification time: a string payload never carries an exp member, so
it cannot have expired.  (The amendment restricts the payload to ASCII:
the latin1 btoa path and the utf-8 decode path disagree on anything else,
see the counterexample.) -/
theorem C1_sign_verify_roundtrip {K S : Type} (importK : JSValue → S)
    (csign : S → List (Fin 256) → List (Fin 256))
    (sha1 : List (Fin 256) → List (Fin 256)) (genPub genPriv : JSValue)
    (keyPref : List Nat) (st : Store) (payload : List Nat)
    (fetchKey : Option JSValue → Option K) (pk : K)
    (cverify : K → List (Fin 256) → List (Fin 256) → Bool) (now : Int) (ks : KeySet)
    (hks : getKeyset st keyPref = some ks)
    (hkid : asciiStr ks.kid = true)
    (hpayload : asciiStr payload = true)
    (hfetch : ∀ v, fetchKey v = some pk)
    (hcrypto : ∀ m, cverify pk (csign (importK ks.priv) m) m = true) :
    ∃ tok, signJWT importK csign sha1 genPub genPriv keyPref st payload = some (tok, st) ∧
      verifyToken fetchKey cverify now tok = .ok (.str payload) := by
  have hload : loadSigningKeyF importK sha1 genPub genPriv keyPref 2 st =
      some ((ks.kid, importK ks.priv), st) := by
    simp [loadSigningKeyF, hks]
  refine ⟨(b64urlStringify (asciiToUint8Array (jsonStringify (headerObj ks.kid))) ++
      46 :: b64urlStringify (asciiToUint8Array (jsonStringify (.str payload)))) ++
      46 :: b64urlStringify (csign (importK ks.priv) (asciiToUint8Array
        (b64urlStringify (asciiToUint8Array (jsonStringify (headerObj ks.kid))) ++
          46 :: b64urlStringify (asciiToUint8Array (jsonStringify (.str payload)))))),
    ?_, ?_⟩
  · simp [signJWT, hload]
  · have hpj := parseJWT_signed ks.kid payload
      (csign (importK ks.priv) (asciiToUint8Array
        (b64urlStringify (asciiToUint8Array (jsonStringify (headerObj ks.kid))) ++
          46 :: b64urlStringify (asciiToUint8Array (jsonStringify (.str payload))))))
      hkid hpayload
    simp only [verifyToken, hpj]
    rw [hfetch]
    simp only [b64url_roundtrip]
    rw [hcrypto]
    simp [expLt, getField]

/-- C1 witness: the ASCII payload hi round-trips under a trivial but
consistent crypto instantiation. -/
theorem C1_sign_verify_roundtrip_witness :
    ∃ tok, signJWT (S := Unit) (fun _ => ()) (fun _ _ => []) (fun _ => [])
        .null .null []
        (putStore (fun _ => none) (keysName [])
          (jsonStringify (keysetToJSON ⟨.null, .null, jstr ("k")⟩)))
        (jstr ("hi")) =
      some (tok, putStore (fun _ => none) (keysName [])
        (jsonStringify (keysetToJSON ⟨.null, .null, jstr ("k")⟩))) ∧
      verifyToken (K := Unit) (fun _ => some ()) (fun _ _ _ => true) 0 tok =
        .ok (.str (jstr ("hi"))) := by
  have hks : getKeyset (putStore (fun _ => none) (keysName [])
      (jsonStringify (keysetToJSON ⟨.null, .null, jstr ("k")⟩))) [] =
      some ⟨.null, .null, jstr ("k")⟩ := rfl
  exact C1_sign_verify_roundtrip (fun _ => ()) (fun _ _ => []) (fun _ => []) .null .null []
    _ (jstr ("hi")) (fun _ => some ()) () (fun _ _ _ => true) 0 ⟨.null, .null, jstr ("k")⟩
    hks rfl rfl (fun _ => rfl) (fun _ => rfl)

/-- C1 counterexample: the one-unit non-ASCII payload 233 is signed with
matching key material, verification succeeds, but the claims are the
replacement character 65533, not the original payload: JSON.stringify
emits the latin1 unit, btoa encodes it as one byte, and the utf-8 decode
on verification replaces that invalid byte, so the round trip quantified
over every payload fails. -/
theorem C1_nonascii_cex :
    (signJWT (S := Unit) (fun _ => ()) (fun _ _ => []) (fun _ => []) .null .null []
        (putStore (fun _ => none) (keysName [])
          (jsonStringify (keysetToJSON ⟨.null, .null, jstr ("k")⟩))) [233]).map
      (fun p => verifyToken (K := Unit) (fun _ => some ()) (fun _ _ _ => true) 0 p.1) =
      some (.ok (.str [65533])) ∧
    JSValue.str [65533] ≠ .str [233] := by
  constructor
  · rfl
  · simp
